import Mathlib

/-!
# Verification of the cfgtools wrapped config tree model

Shallow embedding of the `cfgtools` repository's core data model and
operations, translated from the Python source:

* `src/cfgtools/basic.py` — `BasicWrapper` / `DictBasicWrapper` /
  `ListBasicWrapper`: the status-tracking wrapper tree, its mutation
  operations (`__setitem__`, `__delitem__`), value views (`unwrap`),
  flag search (`has_flag`), and the flat / multi-line / change-view
  renderers (`repr`, `repr_flat`, `colorful_console`, `_sep`).
* `src/cfgtools/templatelib.py` — `ConfigTemplate.fill` and its dict /
  list overrides.
* `src/core.py` — the `config()` factory entry point.
* `src/iowrapper.py` — `ConfigIOWrapper.save`, `lock`/`unlock`,
  `__enter__` / `__exit__`.

Python strings are modelled as `List Char` (`Str`), machine-level I/O as
explicit result values: a function that can raise returns `Except` /
`Option`, and `save` returns the write action it would perform so that
"no file is written on a guard failure" is visible in the result type.
-/

namespace Cfgtools

/-- The four wildcard flag singletons `ANY`, `RETURN`, `YIELD`, `NEVER`
(`basic.py` lines 38-41): instances of the `Flag` dataclass, identified
by their `name` field. -/
inductive FlagV where
  | fAny
  | fReturn
  | fYield
  | fNever
deriving DecidableEq, Repr

/-- `Flag.name` / `Flag.__repr__` (`basic.py` lines 28-35). -/
def flagName : FlagV → String
  | .fAny => "ANY"
  | .fReturn => "RETURN"
  | .fYield => "YIELD"
  | .fNever => "NEVER"

/-- Scalar values storable in a wrapper leaf and usable as mapping keys:
the `valid_types` scalars (`str`, `int`, `bool`, `NoneType`) plus `Flag`
(flags are plain scalar objects and `BasicWrapper.has_flag` compares the
stored object against a flag).  Python floats are omitted: no claim
depends on them. -/
inductive Basic where
  | str (s : String)
  | int (n : Int)
  | bool (b : Bool)
  | pynone
  | flag (f : FlagV)
deriving DecidableEq, Repr

/-- The wrapper status tag `WrapperStatus` (`""`, `"a"`, `"d"`, `"r"`),
stored in `BasicWrapper._BasicWrapper__status` (`basic.py` line 81). -/
inductive Status where
  | unmarked
  | added
  | deleted
  | replaced
deriving DecidableEq, Repr

/-- A wrapper node (`BasicWrapper` and its dict/list subclasses).  Every
node carries the base-class fields `__status` and `__replaced_value`
(`basic.py` lines 80-86); the payload is a scalar, an insertion-ordered
mapping of scalar keys to child nodes, or a list of child nodes. -/
inductive Node where
  | scalar (v : Basic) (st : Status) (rp : Option Node)
  | dict (es : List (Basic × Node)) (st : Status) (rp : Option Node)
  | seq (xs : List Node) (st : Status) (rp : Option Node)
deriving Repr

/-- A plain (unwrapped) nested value, as produced by `unwrap()`. -/
inductive Plain where
  | scalar (v : Basic)
  | dict (es : List (Basic × Plain))
  | seq (xs : List Plain)
deriving Repr

/-- The node's `__status` field. -/
def Node.status : Node → Status
  | .scalar _ st _ => st
  | .dict _ st _ => st
  | .seq _ st _ => st

/-- The node's `__replaced_value` field. -/
def Node.repl : Node → Option Node
  | .scalar _ _ rp => rp
  | .dict _ _ rp => rp
  | .seq _ _ rp => rp

/-- Rebuild a node with a new `__status`. -/
def Node.withStatus : Node → Status → Node
  | .scalar v _ rp, st => .scalar v st rp
  | .dict es _ rp, st => .dict es st rp
  | .seq xs _ rp, st => .seq xs st rp

/-- Rebuild a node with a new `__replaced_value`. -/
def Node.withRepl : Node → Option Node → Node
  | .scalar v st _, rp => .scalar v st rp
  | .dict es st _, rp => .dict es st rp
  | .seq xs st _, rp => .seq xs st rp

/-- `BasicWrapper.mark_as_deleted` (`basic.py` lines 207-209). -/
def markAsDeleted (n : Node) : Node := n.withStatus .deleted

/-- `BasicWrapper.mark_as_added` (`basic.py` lines 211-213). -/
def markAsAdded (n : Node) : Node := n.withStatus .added

/-- `BasicWrapper.mark_as_replaced` (`basic.py` lines 215-219): sets the
new node's status to `"r"`, marks the superseded node deleted, and
stores it as the new node's `__replaced_value`. -/
def markAsReplaced (n old : Node) : Node :=
  (n.withStatus .replaced).withRepl (some (markAsDeleted old))

/-- `BasicWrapper.is_deleted` (`basic.py` lines 221-223). -/
def Node.isDeleted (n : Node) : Bool := n.status == .deleted

/-- `BasicWrapper.is_present` (`basic.py` lines 225-227). -/
def Node.isPresent (n : Node) : Bool := n.status != .deleted

/-- `BasicWrapper.replaced_value` (`basic.py` lines 229-233): returns the
stored `__replaced_value` only when the status is `"r"`. -/
def Node.replacedValue (n : Node) : Option Node :=
  if n.status == .replaced then n.repl else none

mutual

/-- `unwrap()` (`basic.py` lines 161-163, 379-380, 534-535): recursively
strips the wrapping, keeping only children for which `is_present()`
holds. -/
def unwrap : Node → Plain
  | .scalar v _ _ => .scalar v
  | .dict es _ _ => .dict (unwrapEntries es)
  | .seq xs _ _ => .seq (unwrapElems xs)

/-- The dict comprehension `{k: v.unwrap() for k, v in self.__obj.items()
if v.is_present()}` (`basic.py` line 380). -/
def unwrapEntries : List (Basic × Node) → List (Basic × Plain)
  | [] => []
  | (k, w) :: rest =>
    if w.isPresent then (k, unwrap w) :: unwrapEntries rest else unwrapEntries rest

/-- The list comprehension `[x.unwrap() for x in self.__obj if
x.is_present()]` (`basic.py` line 535). -/
def unwrapElems : List Node → List Plain
  | [] => []
  | w :: rest =>
    if w.isPresent then unwrap w :: unwrapElems rest else unwrapElems rest

end

mutual

/-- Physically remove every deleted child, at every level.  This is not a
repository function: it is the measuring stick for the invariant
"`unwrap()` omits deleted entries at every level" — unwrapping a tree
must coincide with unwrapping the tree with all deleted children
physically removed. -/
def pruneDeleted : Node → Node
  | .scalar v st rp => .scalar v st rp
  | .dict es st rp => .dict (pruneEntries es) st rp
  | .seq xs st rp => .seq (pruneElems xs) st rp

/-- Remove deleted entries of a mapping and prune the remaining ones. -/
def pruneEntries : List (Basic × Node) → List (Basic × Node)
  | [] => []
  | (k, w) :: rest =>
    if w.isPresent then (k, pruneDeleted w) :: pruneEntries rest else pruneEntries rest

/-- Remove deleted elements of a sequence and prune the remaining ones. -/
def pruneElems : List Node → List Node
  | [] => []
  | w :: rest =>
    if w.isPresent then pruneDeleted w :: pruneElems rest else pruneElems rest

end


/-! ## Mapping and sequence mutation (`__setitem__`, `__delitem__`) -/

/-- Python `==` on the scalar key/value universe: numeric equality
identifies `bool` with `int` (`True == 1`), `Flag` is a dataclass
compared field-wise, and values of unrelated types compare unequal. -/
def pyEqBasic : Basic → Basic → Bool
  | .str a, .str b => a == b
  | .int a, .int b => a == b
  | .bool a, .bool b => a == b
  | .int a, .bool b => a == (if b then 1 else 0)
  | .bool a, .int b => (if a then (1 : Int) else 0) == b
  | .pynone, .pynone => true
  | .flag a, .flag b => a == b
  | _, _ => false

/-- `key in self.__obj` for a Python dict: key presence, deleted entries
included (`basic.py` line 294). -/
def containsKey (es : List (Basic × Node)) (k : Basic) : Bool :=
  es.any fun e => pyEqBasic e.1 k

/-- `self.__obj[key]` lookup on the raw dict. -/
def lookupKey : List (Basic × Node) → Basic → Option Node
  | [], _ => none
  | (k', v') :: rest, k => if pyEqBasic k' k then some v' else lookupKey rest k

/-- `self.__obj[key] = value` on a Python dict: an existing key keeps its
position (and its original key object), a new key is appended at the
end. -/
def storeKey : List (Basic × Node) → Basic → Node → List (Basic × Node)
  | [], k, v => [(k, v)]
  | (k', v') :: rest, k, v =>
    if pyEqBasic k' k then (k', v) :: rest else (k', v') :: storeKey rest k v

/-- `DictBasicWrapper.__setitem__` (`basic.py` lines 291-298): the value
(already a wrapper here) is marked replaced — remembering the superseded
child — when the key is present in the underlying dict, else marked
added; then stored. -/
def dictSetItem : Node → Basic → Node → Node
  | .dict es st rp, k, v =>
    let v' := match lookupKey es k with
      | some old => markAsReplaced v old
      | none => markAsAdded v
    .dict (storeKey es k v') st rp
  | n, _, _ => n

/-- `self.__obj[key].mark_as_deleted()` on the raw dict; `none` models
the `KeyError` raised when the key is absent. -/
def delKey : List (Basic × Node) → Basic → Option (List (Basic × Node))
  | [], _ => none
  | (k', v') :: rest, k =>
    if pyEqBasic k' k then some ((k', markAsDeleted v') :: rest)
    else (delKey rest k).map ((k', v') :: ·)

/-- `DictBasicWrapper.__delitem__` (`basic.py` lines 300-301). -/
def dictDelItem : Node → Basic → Option Node
  | .dict es st rp, k => (delKey es k).map (.dict · st rp)
  | _, _ => none

/-- `key in self.__obj` in `ListBasicWrapper.__setitem__` (`basic.py`
line 450): the underlying object is a Python *list of wrapper
instances*, so `in` compares the integer index against each element with
`==`.  `int.__eq__` returns `NotImplemented` on a wrapper, and the
reflected `BasicWrapper.__eq__` (`basic.py` lines 118-119) starts with
`isinstance(value, self.__class__)`, which is false for an `int`, so
every comparison — and hence the membership test — is `False`. -/
def listSetItemKeyFound (xs : List Node) (_key : Int) : Bool :=
  xs.any fun _elem => false

/-- Python list indexing (negative indices wrap; out of range is an
`IndexError`, modelled as `none`). -/
def pyListGet (xs : List Node) (i : Int) : Option Node :=
  let j := if i < 0 then i + xs.length else i
  if h : 0 ≤ j ∧ j < xs.length then some (xs.get ⟨j.toNat, by omega⟩) else none

/-- Python list index assignment (negative indices wrap; out of range is
an `IndexError`, modelled as `none`). -/
def pyListSet (xs : List Node) (i : Int) (v : Node) : Option (List Node) :=
  let j := if i < 0 then i + xs.length else i
  if 0 ≤ j ∧ j < xs.length then some (xs.set j.toNat v) else none

/-- `ListBasicWrapper.__setitem__` (`basic.py` lines 447-454), translated
line by line: the membership test `key in self.__obj` decides between
`mark_as_replaced` and `mark_as_added`, then `self.__obj[key] = value`
stores the marked value at the index. -/
def listSetItem : Node → Int → Node → Option Node
  | .seq xs st rp, key, value =>
    let value' :=
      if listSetItemKeyFound xs key then
        -- `value.mark_as_replaced(self.__obj[key])`
        markAsReplaced value ((pyListGet xs key).getD value)
      else
        markAsAdded value
    (pyListSet xs key value').map (.seq · st rp)
  | _, _, _ => none

/-! ## Rendering (`repr`, `repr_flat`, `colorful_console`, `_sep`)

Python strings are modelled as `List Char`; `len` is `List.length`. -/

/-- A Python string. -/
abbrev Str := List Char

/-- Character data of a Lean string literal. -/
def lit (s : String) : Str := s.data

/-- One character of a Python single-quoted `repr` of a string: backslash,
quote and newline are escaped.  (CPython escapes further control
characters and may switch quote style; no claim depends on those.) -/
def escChar (c : Char) : Str :=
  if c = '\\' then ['\\', '\\']
  else if c = '\'' then ['\\', '\'']
  else if c = '\n' then ['\\', 'n']
  else [c]

/-- Escape every character of a string body. -/
def escapeChars : List Char → Str
  | [] => []
  | c :: rest => escChar c ++ escapeChars rest

/-- The decimal digit characters. -/
def digitChar : Nat → Char
  | 0 => '0'
  | 1 => '1'
  | 2 => '2'
  | 3 => '3'
  | 4 => '4'
  | 5 => '5'
  | 6 => '6'
  | 7 => '7'
  | 8 => '8'
  | _ => '9'

/-- Decimal digits of a natural number; `fuel` bounds the recursion
depth (division by ten strictly shrinks a number of at least ten, so any
`fuel` above the digit count is enough). -/
def natReprAux : Nat → Nat → Str
  | 0, _ => []
  | fuel + 1, n =>
    if n < 10 then [digitChar n]
    else natReprAux fuel (n / 10) ++ [digitChar (n % 10)]

/-- Decimal rendering of a natural number. -/
def natRepr (n : Nat) : Str := natReprAux (n + 1) n

/-- Python `repr` of an integer: decimal digits with a sign for negative
values. -/
def intRepr : Int → Str
  | .ofNat n => natRepr n
  | .negSucc n => '-' :: natRepr (n + 1)

/-- Python `repr` of a scalar: quoted string, decimal integer,
`True`/`False`, `None`, or a flag's name (`Flag.__repr__`). -/
def pyReprBasic : Basic → Str
  | .str s => '\'' :: (escapeChars s.data ++ ['\''])
  | .int n => intRepr n
  | .bool b => if b then lit "True" else lit "False"
  | .pynone => lit "None"
  | .flag f => (flagName f).data

mutual

/-- Python `repr` of a plain nested value (`repr(self.unwrap())`). -/
def pyReprPlain : Plain → Str
  | .scalar v => pyReprBasic v
  | .dict es => '{' :: (pyReprDictItems es ++ ['}'])
  | .seq xs => '[' :: (pyReprListItems xs ++ [']'])

/-- The comma-separated `'k': v` items of a Python dict `repr`. -/
def pyReprDictItems : List (Basic × Plain) → Str
  | [] => []
  | [(k, p)] => pyReprBasic k ++ lit ": " ++ pyReprPlain p
  | (k, p) :: rest =>
    pyReprBasic k ++ lit ": " ++ pyReprPlain p ++ lit ", " ++ pyReprDictItems rest

/-- The comma-separated items of a Python list `repr`. -/
def pyReprListItems : List Plain → Str
  | [] => []
  | [p] => pyReprPlain p
  | p :: rest => pyReprPlain p ++ lit ", " ++ pyReprListItems rest

end

/-- The status string handed to `colorful_console` by the renderers:
they only ever build `""` (unchanged) or `"d"` (deleted); `"a"`/`"r"`
share the highlight color of the `"a" | "r"` match arm. -/
inductive RenderStatus where
  | blank
  | highl
  | rdel
deriving DecidableEq, Repr

/-- `colorful_console` (`basic.py` lines 610-620): wraps the string in an
ANSI background color escape according to the status. -/
def colorConsole (s : Str) : RenderStatus → Str
  | .blank => s
  | .highl => lit "\x1b[48;5;028m" ++ s ++ lit "\x1b[0m"
  | .rdel => lit "\x1b[48;5;088m" ++ s ++ lit "\x1b[0m"

/-- `_sep` (`basic.py` lines 623-624): four spaces per level. -/
def sep (level : Nat) : Str := List.replicate (4 * level) ' '

/-- `"".join(lines)`. -/
def joinStrs : List Str → Str
  | [] => []
  | s :: rest => s ++ joinStrs rest

/-- `"\n".join(lines)`. -/
def joinNL : List Str → Str
  | [] => []
  | [s] => s
  | s :: rest => s ++ '\n' :: joinNL rest

mutual

/-- `repr_flat` (`basic.py` lines 126-129, 343-368, 496-519): the
one-line rendering together with its reported length.  For a scalar the
pair is the `repr` of the stored object; for containers outside change
view it is the `repr` of `unwrap()`; in change view it is assembled
entry by entry — deleted entries included and colored — and the reported
length counts the entries as in the source (the enclosing brackets are
not counted there). -/
def nodeFlat : Node → Bool → Nat × Str
  | .scalar v _ _, _ => ((pyReprBasic v).length, pyReprBasic v)
  | .dict es st rp, cv =>
    if cv then
      let r := dictFlatCVAux es es.length 0
      (r.2, '{' :: (joinStrs r.1 ++ ['}']))
    else
      ((pyReprPlain (unwrap (.dict es st rp))).length,
        pyReprPlain (unwrap (.dict es st rp)))
  | .seq xs st rp, cv =>
    if cv then
      let r := listFlatCVAux xs xs.length 0
      (r.2, '[' :: (joinStrs r.1 ++ [']']))
    else
      ((pyReprPlain (unwrap (.seq xs st rp))).length,
        pyReprPlain (unwrap (.seq xs st rp)))

/-- The `lines` / `length` loop of `DictBasicWrapper.repr_flat` in change
view (`basic.py` lines 347-366): `maxi` is the total entry count, `i`
the index of the first remaining entry. -/
def dictFlatCVAux : List (Basic × Node) → Nat → Nat → List Str × Nat
  | [], _, _ => ([], 0)
  | (k, v) :: rest, maxi, i =>
    let st := if v.isDeleted then RenderStatus.rdel else RenderStatus.blank
    let key := pyReprBasic k ++ lit ": "
    let r := nodeFlat v true
    let line :=
      if maxi ≤ 1 then (colorConsole (key ++ r.2) st, key.length + r.1)
      else if i == 0 then (colorConsole (key ++ r.2 ++ [',']) st, key.length + r.1 + 1)
      else if i < maxi - 1 then
        (colorConsole (' ' :: (key ++ r.2 ++ [','])) st, key.length + r.1 + 2)
      else (colorConsole (' ' :: (key ++ r.2)) st, key.length + r.1 + 1)
    let tl := dictFlatCVAux rest maxi (i + 1)
    (line.1 :: tl.1, line.2 + tl.2)

/-- The `lines` / `length` loop of `ListBasicWrapper.repr_flat` in change
view (`basic.py` lines 500-517). -/
def listFlatCVAux : List Node → Nat → Nat → List Str × Nat
  | [], _, _ => ([], 0)
  | v :: rest, maxi, i =>
    let st := if v.isDeleted then RenderStatus.rdel else RenderStatus.blank
    let r := nodeFlat v true
    let line :=
      if maxi ≤ 1 then (colorConsole r.2 st, r.1)
      else if i == 0 then (colorConsole (r.2 ++ [',']) st, r.1 + 1)
      else if i < maxi - 1 then (colorConsole (' ' :: (r.2 ++ [','])) st, r.1 + 2)
      else (colorConsole (' ' :: r.2) st, r.1 + 1)
    let tl := listFlatCVAux rest maxi (i + 1)
    (line.1 :: tl.1, line.2 + tl.2)

end

mutual

/-- `repr` (`basic.py` lines 121-124, 314-341, 468-494).  At the top
level (`level == 0`) the flat form is returned whenever its reported
length fits within the width `w` (the module variable `MAX_LINE_WIDTH`,
default 88, read through `get_max_line_width`).  Otherwise the entries
are laid out greedily onto indented lines. -/
def nodeRepr : Node → Nat → Nat → Bool → Str
  | .scalar v _ _, _, _, _ => pyReprBasic v
  | .dict es st rp, w, level, cv =>
    if level == 0 ∧ (nodeFlat (.dict es st rp) cv).1 ≤ w then
      (nodeFlat (.dict es st rp) cv).2
    else
      '{' :: '\n' :: (joinNL (dictReprLines es w level cv []) ++
        '\n' :: (sep level ++ ['}']))
  | .seq xs st rp, w, level, cv =>
    if level == 0 ∧ (nodeFlat (.seq xs st rp) cv).1 ≤ w then
      (nodeFlat (.seq xs st rp) cv).2
    else
      '[' :: '\n' :: (joinNL (listReprLines xs w level cv []) ++
        '\n' :: (sep level ++ [']']))

/-- The greedy line-packing loop of `DictBasicWrapper.repr` (`basic.py`
lines 319-339): skip deleted entries outside change view; try to append
the entry's flat form to the current last line, else start a new
indented line, else embed the child's multi-line rendering at
`level + 1`. -/
def dictReprLines : List (Basic × Node) → Nat → Nat → Bool → List Str → List Str
  | [], _, _, _, lines => lines
  | (k, v) :: rest, w, level, cv, lines =>
    if v.isDeleted ∧ ¬cv then dictReprLines rest w level cv lines
    else
      let st := if v.isDeleted then RenderStatus.rdel else RenderStatus.blank
      let head := (lines.getLast?).getD []
      let key := pyReprBasic k ++ lit ": "
      let r := nodeFlat v cv
      let lines' :=
        if ¬lines.isEmpty ∧ head.length + key.length + r.1 + 2 ≤ w then
          lines.dropLast ++ [head ++ colorConsole (' ' :: (key ++ r.2 ++ [','])) st]
        else if (sep (level + 1)).length + key.length + r.1 < w then
          lines ++ [colorConsole (sep (level + 1) ++ key ++ r.2 ++ [',']) st]
        else
          lines ++ [colorConsole
            (sep (level + 1) ++ key ++ nodeRepr v w (level + 1) cv ++ [',']) st]
      dictReprLines rest w level cv lines'

/-- The greedy line-packing loop of `ListBasicWrapper.repr` (`basic.py`
lines 473-492). -/
def listReprLines : List Node → Nat → Nat → Bool → List Str → List Str
  | [], _, _, _, lines => lines
  | v :: rest, w, level, cv, lines =>
    if v.isDeleted ∧ ¬cv then listReprLines rest w level cv lines
    else
      let st := if v.isDeleted then RenderStatus.rdel else RenderStatus.blank
      let head := (lines.getLast?).getD []
      let r := nodeFlat v cv
      let lines' :=
        if ¬lines.isEmpty ∧ head.length + r.1 + 2 ≤ w then
          lines.dropLast ++ [head ++ colorConsole (' ' :: (r.2 ++ [','])) st]
        else if (sep (level + 1)).length + r.1 < w then
          lines ++ [colorConsole (sep (level + 1) ++ r.2 ++ [',']) st]
        else
          lines ++ [colorConsole
            (sep (level + 1) ++ nodeRepr v w (level + 1) cv ++ [',']) st]
      listReprLines rest w level cv lines'

end

/-! ## `has_flag` -/

/-- Python runtime errors distinguished by this development. -/
inductive PyErr where
  | typeError (msg : String)
  | attributeError (msg : String)
deriving DecidableEq, Repr

/-- The children a container exposes through iteration / `items()`:
`unwrap_top_level` keeps exactly the present ones (`basic.py` lines
382-383, 537-538). -/
def presentEntries (es : List (Basic × Node)) : List (Basic × Node) :=
  es.filter fun e => e.2.isPresent

/-- Present elements of a sequence (`basic.py` line 538). -/
def presentElems (xs : List Node) : List Node :=
  xs.filter Node.isPresent

mutual

/-- `has_flag` (`basic.py` lines 235-237, 410-411, 565-566).
A scalar compares its stored object against the flag.  A mapping
evaluates `any(k == flag or v.has_flag(flag) for k, v in self.items())`
over its present items, short-circuiting, propagating any error from a
recursive call.  A sequence evaluates `any(x.has_flag() for x in self)`
(`basic.py` line 566): `has_flag` is called there *without* its required
positional-only `flag` argument, so the first present element raises
`TypeError`; only the empty generator returns (`any` of nothing is
`False`). -/
def hasFlag : Node → FlagV → Except PyErr Bool
  | .scalar v _ _, f => .ok (pyEqBasic v (.flag f))
  | .dict es _ _, f => hasFlagEntries es f
  | .seq xs _ _, _ =>
    match presentElems xs with
    | [] => .ok false
    | _ :: _ =>
      .error (.typeError
        "has_flag() missing 1 required positional argument: 'flag'")

/-- The short-circuiting `any` over a mapping's present items (deleted
entries are invisible to `self.items()` and are skipped). -/
def hasFlagEntries : List (Basic × Node) → FlagV → Except PyErr Bool
  | [], _ => .ok false
  | (k, v) :: rest, f =>
    if v.isPresent then
      if pyEqBasic k (.flag f) then .ok true
      else
        match hasFlag v f with
        | .error e => .error e
        | .ok true => .ok true
        | .ok false => hasFlagEntries rest f
    else hasFlagEntries rest f

end

/-! ## Templates and `fill` (`templatelib.py`) -/

/-- A Python type object usable as a concrete-type template pattern. -/
inductive PyType where
  | tStr
  | tInt
  | tBool
  | tNone
  | tDict
  | tList
deriving DecidableEq, Repr

/-- `self.__obj()`: the default instance of a type (`str()` is `""`,
`int()` is `0`, `bool()` is `False`, `NoneType()` is `None`, `dict()` is
`{}`, `list()` is `[]`). -/
def PyType.defaultValue : PyType → Plain
  | .tStr => .scalar (.str "")
  | .tInt => .scalar (.int 0)
  | .tBool => .scalar (.bool false)
  | .tNone => .scalar .pynone
  | .tDict => .dict []
  | .tList => .seq []

/-- `wrapper.isinstance(cls)`: `isinstance` of the wrapped data against a
type object.  `isinstance(True, int)` holds in Python. -/
def plainIsInstance : Plain → PyType → Bool
  | .scalar (.str _), .tStr => true
  | .scalar (.int _), .tInt => true
  | .scalar (.bool _), .tInt => true
  | .scalar (.bool _), .tBool => true
  | .scalar .pynone, .tNone => true
  | .dict _, .tDict => true
  | .seq _, .tList => true
  | _, _ => false

/-- A `ConfigTemplate` tree (`templatelib.py`): a scalar template holds a
literal, a type object, or a unary predicate; containers hold template
children.  Mapping keys are modelled as scalar literals (the inputs all
claims use). -/
inductive Tpl where
  | lit (v : Basic)
  | typ (t : PyType)
  | pred (p : Plain → Bool)
  | dict (es : List (Basic × Tpl))
  | seq (xs : List Tpl)

/-- `fill(constructor)` with the default `wrapper=None` — the
claim-relevant call (`templatelib.py` lines 240-256, 428-447, 585-601).
The concrete wrapper produced by `constructor` is represented by its
plain wrapped value.  With `wrapper=None`:
* a type template takes the `wrapper is not None and ...` short circuit
  and returns `constructor(self.__obj())` — the type's default instance;
* a predicate (`Callable`) template likewise returns
  `constructor(None)`;
* a literal scalar template hits `if wrapper is None: return
  constructor(self.__obj)`;
* the dict and list overrides evaluate `wrapper.isinstance(dict)` /
  `wrapper.isinstance(list)` first, which on `None` raises
  `AttributeError` (`NoneType` has no attribute `isinstance`) before
  any recursive call. -/
def fillNone : Tpl → Except PyErr Plain
  | .typ t => .ok t.defaultValue
  | .pred _ => .ok (.scalar .pynone)
  | .lit v => .ok (.scalar v)
  | .dict _ =>
    .error (.attributeError "'NoneType' object has no attribute 'isinstance'")
  | .seq _ =>
    .error (.attributeError "'NoneType' object has no attribute 'isinstance'")

/-! ## `ConfigIOWrapper` persistence (`iowrapper.py`, `core.py`) -/

/-- The `ConfigIOWrapper` fields relevant to persistence
(`iowrapper.py` lines 92-110): the wrapped data, the stored file
format/path/encoding, and the `overwrite_ok` gate (`True` on
construction). -/
structure CfgIO where
  obj : Plain
  fileformat : Option String := none
  path : Option String := none
  encoding : Option String := none
  overwriteOk : Bool := true

/-- `SUFFIX_MAPPING` (`iowrapper.py` lines 24-33). -/
def SUFFIX_MAPPING : List (String × String) :=
  [(".yaml", "yaml"), (".yml", "yaml"), (".pickle", "pickle"),
   (".pkl", "pickle"), (".json", "json"), (".ini", "ini"),
   (".txt", "text"), (".bytes", "bytes")]

/-- `FORMAT_MAPPING` (`iowrapper.py` lines 34-44). -/
def FORMAT_MAPPING : List (String × String) :=
  [("yaml", "yaml"), ("yml", "yaml"), ("pickle", "pickle"),
   ("pkl", "pickle"), ("json", "json"), ("ini", "ini"),
   ("text", "text"), ("txt", "text"), ("bytes", "bytes")]

/-- `Path(path).suffix`: the final extension of the last path component;
empty when the name has no dot past its first character or only a
trailing dot. -/
def pathSuffix (p : String) : String :=
  let cs := (p.data.reverse.takeWhile (· ≠ '/')).reverse
  let revIdx := cs.reverse.findIdx (· == '.')
  if revIdx == cs.length then ""
  else
    let i := cs.length - 1 - revIdx
    if 0 < i ∧ i < cs.length - 1 then String.mk (cs.drop i) else ""

/-- The typed exceptions `ConfigIOWrapper.save` and `__enter__` raise. -/
inductive SaveErr where
  | valueError
  | typeError
  | fileFormatError
deriving DecidableEq, Repr

/-- The single delegated write `super().save(path,
FORMAT_MAPPING[fileformat], encoding=encoding)` (`iowrapper.py` line
277): what would be written where.  `save` returns it instead of
performing it, so an error result carries no write by construction. -/
structure WriteAction where
  path : String
  format : String
  encoding : Option String
deriving DecidableEq, Repr

/-- The file-format resolution of `ConfigIOWrapper.save` (`iowrapper.py`
lines 270-274): the explicit argument wins; else a recognized path
suffix; else the stored format, defaulting to `"json"`. -/
def resolveFormat (w : CfgIO) (p : String) (fileformat : Option String) : String :=
  match fileformat with
  | none =>
    match SUFFIX_MAPPING.lookup (pathSuffix p) with
    | some f => f
    | none => w.fileformat.getD "json"
  | some f => f

/-- The tail of `ConfigIOWrapper.save` once the target path is known
(`iowrapper.py` lines 270-279): format resolution, encoding defaulting
to the stored encoding (line 275), and the final support check — an
unsupported resolved format raises `FileFormatError` (lines 276-279). -/
def saveResolved (w : CfgIO) (p : String) (fileformat : Option String)
    (encoding : Option String) : Except SaveErr WriteAction :=
  let enc := match encoding with
    | none => w.encoding
    | some e => some e
  match FORMAT_MAPPING.lookup (resolveFormat w p fileformat) with
  | some f => .ok ⟨p, f, enc⟩
  | none => .error .fileFormatError

/-- `ConfigIOWrapper.save` (`iowrapper.py` lines 225-279).  With no
`path` argument: a missing stored path raises `ValueError`, a stored
path under the `overwrite_ok = False` lock raises `TypeError`; an
explicit `path` argument skips both checks entirely. -/
def save (w : CfgIO) (path : Option String) (fileformat : Option String)
    (encoding : Option String) : Except SaveErr WriteAction :=
  match path with
  | none =>
    match w.path with
    | none => .error .valueError
    | some p =>
      if ¬w.overwriteOk then .error .typeError
      else saveResolved w p fileformat encoding
  | some p => saveResolved w p fileformat encoding

/-- `ConfigIOWrapper.lock` (`iowrapper.py` lines 310-312). -/
def lock (w : CfgIO) : CfgIO := { w with overwriteOk := false }

/-- `ConfigIOWrapper.unlock` (`iowrapper.py` lines 314-316). -/
def unlock (w : CfgIO) : CfgIO := { w with overwriteOk := true }

/-- `ConfigIOWrapper.__enter__` (`iowrapper.py` lines 118-127): raises
`TypeError` when there is no stored path, raises `TypeError` when
`overwrite_ok` is already `False`, otherwise locks and returns self. -/
def enterCtx (w : CfgIO) : Except SaveErr CfgIO :=
  match w.path with
  | none => .error .typeError
  | some _ => if ¬w.overwriteOk then .error .typeError else .ok (lock w)

/-- A `self.save(...)` invocation (its three arguments). -/
structure SaveCall where
  path : Option String
  fileformat : Option String
  encoding : Option String
deriving DecidableEq, Repr

/-- `ConfigIOWrapper.__exit__` (`iowrapper.py` lines 129-131): the
exception information is ignored (`*args`); the wrapper is unlocked and
then `self.save()` is invoked once with all-default arguments.  The
result is the post-state together with the list of `save()` invocations
made. -/
def exitCtx (w : CfgIO) (_excInfo : Option String) : CfgIO × List SaveCall :=
  (unlock w, [⟨none, none, none⟩])

/-- `config` (`core.py` lines 59-74): `return ConfigIOWrapper(obj)` with
`obj` defaulting to `None`.  Scalar construction stores the data
unchanged with no format, path or encoding (`iowrapper.py` lines
92-110); in particular `config()` wraps the scalar `None` itself. -/
def configNew (obj : Plain := .scalar .pynone) : CfgIO := { obj := obj }

/-- The writes a `save` call performs: exactly the delegated write on
success, nothing on a raised guard error. -/
def writesOf : Except SaveErr WriteAction → List WriteAction
  | .ok a => [a]
  | .error _ => []

/-- The rendered segment the change-view `repr_flat` loop appends for
the entry at index `i` (of `maxi` entries): key, flat child rendering,
surrounding space/comma by position, colored by deleted status. -/
def dictFlatCVLine (maxi i : Nat) (k : Basic) (v : Node) : Str :=
  let st := if v.isDeleted then RenderStatus.rdel else RenderStatus.blank
  let key := pyReprBasic k ++ lit ": "
  let r := nodeFlat v true
  if maxi ≤ 1 then colorConsole (key ++ r.2) st
  else if i == 0 then colorConsole (key ++ r.2 ++ [',']) st
  else if i < maxi - 1 then colorConsole (' ' :: (key ++ r.2 ++ [','])) st
  else colorConsole (' ' :: (key ++ r.2)) st

/-- The rendered segment the change-view `repr_flat` loop of a sequence
appends for the element at index `i` of `maxi`. -/
def listFlatCVLine (maxi i : Nat) (v : Node) : Str :=
  let st := if v.isDeleted then RenderStatus.rdel else RenderStatus.blank
  let r := nodeFlat v true
  if maxi ≤ 1 then colorConsole r.2 st
  else if i == 0 then colorConsole (r.2 ++ [',']) st
  else if i < maxi - 1 then colorConsole (' ' :: (r.2 ++ [','])) st
  else colorConsole (' ' :: r.2) st

/-- A rendered line begins with the four-spaces-per-level indentation of
nesting level `level + 1` (entries of a node at `level` are laid out one
level deeper). -/
def hasIndent (level : Nat) (l : Str) : Prop :=
  l.take (4 * (level + 1)) = sep (level + 1)

/-- One step of the greedy packing loop of `DictBasicWrapper.repr` for a
visible entry (`basic.py` lines 330-339): append the entry to the
current last line when its flat form still fits within the width; else
open a new indented line when the flat form fits there; else embed the
child's multi-line rendering at `level + 1`. -/
def dictReprStep (w level : Nat) (cv : Bool) (lines : List Str) (k : Basic)
    (v : Node) : List Str :=
  let st := if v.isDeleted then RenderStatus.rdel else RenderStatus.blank
  let head := (lines.getLast?).getD []
  let key := pyReprBasic k ++ lit ": "
  let r := nodeFlat v cv
  if ¬lines.isEmpty ∧ head.length + key.length + r.1 + 2 ≤ w then
    lines.dropLast ++ [head ++ colorConsole (' ' :: (key ++ r.2 ++ [','])) st]
  else if (sep (level + 1)).length + key.length + r.1 < w then
    lines ++ [colorConsole (sep (level + 1) ++ key ++ r.2 ++ [',']) st]
  else
    lines ++ [colorConsole
      (sep (level + 1) ++ key ++ nodeRepr v w (level + 1) cv ++ [',']) st]


/-- A one-entry mapping `{'a': 1}` as underlying entries. -/
def demoEntries : List (Basic × Node) :=
  [(.str "a", .scalar (.int 1) .unmarked none)]

/-- The freshly assigned child `2`. -/
def demoNew : Node := .scalar (.int 2) .unmarked none

/-- A pathless in-memory wrapper. -/
def wNoPath : CfgIO := { obj := Plain.scalar .pynone }

/-- A wrapper tied to `a.json` and locked. -/
def wLocked : CfgIO :=
  { obj := Plain.scalar .pynone, path := some "a.json", overwriteOk := false }

/-- A wrapper tied to `a.json`, unlocked. -/
def wPathed : CfgIO := { obj := Plain.scalar .pynone, path := some "a.json" }

/-! ## General lemmas -/

theorem status_pruneDeleted (n : Node) : (pruneDeleted n).status = n.status := by
  cases n <;> simp [pruneDeleted, Node.status]

theorem isPresent_pruneDeleted (n : Node) : (pruneDeleted n).isPresent = n.isPresent := by
  simp [Node.isPresent, status_pruneDeleted]

mutual

theorem unwrap_pruneDeleted : (n : Node) → unwrap (pruneDeleted n) = unwrap n
  | .scalar v st rp => rfl
  | .dict es st rp => by
    simp only [pruneDeleted, unwrap, unwrapEntries_pruneEntries es]
  | .seq xs st rp => by
    simp only [pruneDeleted, unwrap, unwrapElems_pruneElems xs]

theorem unwrapEntries_pruneEntries :
    (es : List (Basic × Node)) → unwrapEntries (pruneEntries es) = unwrapEntries es
  | [] => rfl
  | (k, w) :: rest => by
    by_cases h : w.isPresent
    · simp only [pruneEntries, h, if_true, unwrapEntries, isPresent_pruneDeleted,
        unwrap_pruneDeleted w, unwrapEntries_pruneEntries rest]
    · simp [pruneEntries, h, unwrapEntries, unwrapEntries_pruneEntries rest]

theorem unwrapElems_pruneElems :
    (xs : List Node) → unwrapElems (pruneElems xs) = unwrapElems xs
  | [] => rfl
  | w :: rest => by
    by_cases h : w.isPresent
    · simp only [pruneElems, h, if_true, unwrapElems, isPresent_pruneDeleted,
        unwrap_pruneDeleted w, unwrapElems_pruneElems rest]
    · simp [pruneElems, h, unwrapElems, unwrapElems_pruneElems rest]

end

theorem pyEqBasic_refl (k : Basic) : pyEqBasic k k = true := by
  cases k <;> simp [pyEqBasic]

theorem status_withStatus (n : Node) (st : Status) :
    (n.withStatus st).status = st := by
  cases n <;> rfl

theorem lookupKey_eq_none_of_not_contains {es : List (Basic × Node)} {k : Basic}
    (h : containsKey es k = false) : lookupKey es k = none := by
  induction es with
  | nil => rfl
  | cons e rest ih =>
    obtain ⟨k', v'⟩ := e
    simp only [containsKey, List.any_cons, Bool.or_eq_false_iff] at h
    rw [lookupKey, if_neg (by simp_all)]
    exact ih (by simpa [containsKey] using h.2)

theorem storeKey_of_not_contains {es : List (Basic × Node)} {k : Basic}
    (v : Node) (h : containsKey es k = false) : storeKey es k v = es ++ [(k, v)] := by
  induction es with
  | nil => rfl
  | cons e rest ih =>
    obtain ⟨k', v'⟩ := e
    simp only [containsKey, List.any_cons, Bool.or_eq_false_iff] at h
    rw [storeKey, if_neg (by simp_all), List.cons_append,
      ih (by simpa [containsKey] using h.2)]

theorem delKey_append_fresh {es : List (Basic × Node)} {k : Basic}
    (v : Node) (h : containsKey es k = false) :
    delKey (es ++ [(k, v)]) k = some (es ++ [(k, markAsDeleted v)]) := by
  induction es with
  | nil => simp [delKey, pyEqBasic_refl]
  | cons e rest ih =>
    obtain ⟨k', v'⟩ := e
    simp only [containsKey, List.any_cons, Bool.or_eq_false_iff] at h
    rw [List.cons_append, delKey, if_neg (by simp_all),
      ih (by simpa [containsKey] using h.2)]
    rfl

theorem unwrapEntries_append (a b : List (Basic × Node)) :
    unwrapEntries (a ++ b) = unwrapEntries a ++ unwrapEntries b := by
  induction a with
  | nil => rfl
  | cons e rest ih =>
    cases e with
    | mk k w =>
      by_cases h : w.isPresent <;>
        simp [unwrapEntries, h, ih]

/-! ## Claim theorems -/

/-- C2: for every wrapper tree, `unwrap()` omits deleted entries at
every level — unwrapping a tree coincides with unwrapping the tree from
which every deleted child of every mapping and sequence node has been
physically removed, so no deleted entry contributes anything, at any
depth, to the plain nested value. -/
theorem unwrap_omits_deleted_at_every_level (n : Node) :
    unwrap n = unwrap (pruneDeleted n) :=
  (unwrap_pruneDeleted n).symm

/-- C1, failing part: the claim holds for mappings but fails for
sequences.  Assigning index `0` of the two-element sequence wrapper
`[1, 2]` — an index at which an entry exists — stores the new child with
status `added` and no `replaced_value`, not status `replaced` carrying
the superseded child: the `key in self.__obj` test of
`ListBasicWrapper.__setitem__` (`basic.py` line 450) compares the
integer index against the wrapper elements and is never true. -/
theorem seq_setitem_marks_added_not_replaced :
    listSetItem
        (Node.seq [.scalar (.int 1) .unmarked none, .scalar (.int 2) .unmarked none]
          .unmarked none)
        0 (Node.scalar (.int 5) .unmarked none)
      = some (Node.seq
          [.scalar (.int 5) .added none, .scalar (.int 2) .unmarked none]
          .unmarked none)
    ∧ (Node.scalar (.int 5) .added none).status = .added
    ∧ (Node.scalar (.int 5) .added none).replacedValue = none := by
  refine ⟨rfl, rfl, rfl⟩

/-- C4, failing part: `has_flag` does not return normally on every tree.
On the one-element sequence wrapper `[ANY]` — whose tree plainly
contains the flag `ANY` — `has_flag(ANY)` raises a `TypeError`, because
`ListBasicWrapper.has_flag` (`basic.py` line 566) invokes the child's
`has_flag()` without its required positional argument.  A scalar wrapper
holding the flag, by contrast, returns `True` as claimed. -/
theorem seq_has_flag_raises_type_error :
    hasFlag (Node.seq [.scalar (.flag .fAny) .unmarked none] .unmarked none) .fAny
      = .error (.typeError
          "has_flag() missing 1 required positional argument: 'flag'")
    ∧ hasFlag (Node.scalar (.flag .fAny) .unmarked none) .fAny = .ok true := by
  exact ⟨rfl, rfl⟩

/-- C5, failing part: `fill(constructor)` with no existing wrapper
succeeds exactly on scalar templates — a type template yields the type's
default instance, a predicate template a `None` value, a literal
template the literal — but on a mapping or sequence template it raises
an `AttributeError` instead of filling the entries fresh:
`DictConfigTemplate.fill` / `ListConfigTemplate.fill`
(`templatelib.py` lines 433, 590) evaluate `wrapper.isinstance(...)`
on `wrapper = None` first. -/
theorem template_fill_no_wrapper_behavior :
    fillNone (.dict [(.str "a", .lit (.int 1))])
      = .error (.attributeError "'NoneType' object has no attribute 'isinstance'")
    ∧ fillNone (.seq [.lit (.int 1)])
      = .error (.attributeError "'NoneType' object has no attribute 'isinstance'")
    ∧ fillNone (.typ .tInt) = .ok (.scalar (.int 0))
    ∧ fillNone (.typ .tStr) = .ok (.scalar (.str ""))
    ∧ fillNone (.pred fun _ => true) = .ok (.scalar .pynone)
    ∧ fillNone (.lit (.str "x")) = .ok (.scalar (.str "x")) := by
  exact ⟨rfl, rfl, rfl, rfl, rfl, rfl⟩

theorem dictFlatCVAux_fst_cons (maxi i : Nat) (k : Basic) (v : Node)
    (rest : List (Basic × Node)) :
    (dictFlatCVAux ((k, v) :: rest) maxi i).1
      = dictFlatCVLine maxi i k v :: (dictFlatCVAux rest maxi (i + 1)).1 := by
  rw [dictFlatCVAux]
  simp only [dictFlatCVLine, apply_ite Prod.fst]

theorem listFlatCVAux_fst_cons (maxi i : Nat) (v : Node) (rest : List Node) :
    (listFlatCVAux (v :: rest) maxi i).1
      = listFlatCVLine maxi i v :: (listFlatCVAux rest maxi (i + 1)).1 := by
  rw [listFlatCVAux]
  simp only [listFlatCVLine, apply_ite Prod.fst]

theorem dictFlatCVAux_append (maxi : Nat) (es es' : List (Basic × Node)) :
    ∀ i, (dictFlatCVAux (es ++ es') maxi i).1
      = (dictFlatCVAux es maxi i).1 ++ (dictFlatCVAux es' maxi (i + es.length)).1 := by
  induction es with
  | nil =>
    intro i
    rw [dictFlatCVAux]
    simp
  | cons e rest ih =>
    intro i
    obtain ⟨k', v'⟩ := e
    rw [List.cons_append, dictFlatCVAux_fst_cons, dictFlatCVAux_fst_cons, ih (i + 1)]
    simp only [List.length_cons, List.cons_append, List.cons.injEq, true_and]
    have : i + 1 + rest.length = i + (rest.length + 1) := by omega
    rw [this]

/-- C3: setting a fresh key and then deleting it leaves `unwrap()` as it
was, yet the node is still physically contained in the underlying dict,
and the change-view flat rendering (`repr_flat(True)`, whose segment
list is `dictFlatCVAux`) still shows the entry as its last rendered
segment, decorated with the deleted-status highlight instead of being
omitted. -/
theorem set_then_delete_fresh_key (es : List (Basic × Node)) (st : Status)
    (rp : Option Node) (k : Basic) (v : Node) (h : containsKey es k = false) :
    dictDelItem (dictSetItem (.dict es st rp) k v) k
      = some (.dict (es ++ [(k, markAsDeleted (markAsAdded v))]) st rp)
    ∧ unwrap (Node.dict (es ++ [(k, markAsDeleted (markAsAdded v))]) st rp)
      = unwrap (.dict es st rp)
    ∧ containsKey (es ++ [(k, markAsDeleted (markAsAdded v))]) k = true
    ∧ (dictFlatCVAux (es ++ [(k, markAsDeleted (markAsAdded v))])
          (es ++ [(k, markAsDeleted (markAsAdded v))]).length 0).1.getLast?
      = some (dictFlatCVLine (es.length + 1) es.length k
          (markAsDeleted (markAsAdded v)))
    ∧ dictFlatCVLine (es.length + 1) es.length k (markAsDeleted (markAsAdded v))
      = colorConsole ((if es.length = 0 then [] else [' '])
          ++ (pyReprBasic k ++ lit ": "
            ++ (nodeFlat (markAsDeleted (markAsAdded v)) true).2)) .rdel := by
  have hdel : (markAsDeleted (markAsAdded v)).isDeleted = true := by
    simp [Node.isDeleted, markAsDeleted, status_withStatus]
  refine ⟨?_, ?_, ?_, ?_, ?_⟩
  · rw [dictSetItem]
    rw [lookupKey_eq_none_of_not_contains h, storeKey_of_not_contains _ h]
    rw [dictDelItem, delKey_append_fresh _ h]
    rfl
  · have hnp : (markAsDeleted (markAsAdded v)).isPresent = false := by
      simp [Node.isPresent, markAsDeleted, status_withStatus]
    simp [unwrap, unwrapEntries_append, unwrapEntries, hnp]
  · simp [containsKey, pyEqBasic_refl]
  · rw [dictFlatCVAux_append]
    simp only [Nat.zero_add]
    rw [dictFlatCVAux_fst_cons, dictFlatCVAux]
    simp [List.getLast?_concat]
  · rw [dictFlatCVLine]
    simp only [hdel, if_true, reduceIte]
    rcases es with _ | ⟨e, rest⟩
    · simp
    · have h1 : ¬((e :: rest).length + 1 ≤ 1) := by simp
      have h2 : ¬((e :: rest).length == 0) = true := by simp
      have h3 : ¬((e :: rest).length < (e :: rest).length + 1 - 1) := by simp
      simp only [h1, h2, h3, if_false, List.length_cons]
      simp


/-- C3 witness: for the concrete mapping `{'a': 1}` and the fresh key
`'b'`, set-then-delete leaves `unwrap()` unchanged while the key stays
physically present. -/
theorem set_then_delete_fresh_key_witness :
    containsKey demoEntries (.str "b") = false
    ∧ unwrap (Node.dict (demoEntries
        ++ [(Basic.str "b", markAsDeleted (markAsAdded demoNew))]) .unmarked none)
      = unwrap (.dict demoEntries .unmarked none)
    ∧ containsKey (demoEntries
        ++ [(Basic.str "b", markAsDeleted (markAsAdded demoNew))]) (.str "b")
      = true := by
  refine ⟨by decide, ?_, ?_⟩
  · exact (set_then_delete_fresh_key demoEntries .unmarked none (.str "b") demoNew
      (by decide)).2.1
  · exact (set_then_delete_fresh_key demoEntries .unmarked none (.str "b") demoNew
      (by decide)).2.2.1

/-! ## Newline-freeness of the flat renderings -/

theorem newline_notin_append {a b : Str} (ha : '\n' ∉ a) (hb : '\n' ∉ b) :
    '\n' ∉ a ++ b := by
  simp only [List.mem_append]
  rintro (h | h)
  exacts [ha h, hb h]

theorem newline_notin_escChar (c : Char) : '\n' ∉ escChar c := by
  unfold escChar
  split
  · decide
  · split
    · decide
    · split
      · decide
      · rename_i h1 h2 h3
        simp only [List.mem_singleton]
        intro h
        exact h3 h.symm

theorem newline_notin_escapeChars (l : List Char) : '\n' ∉ escapeChars l := by
  induction l with
  | nil => simp [escapeChars]
  | cons c rest ih =>
    simp only [escapeChars, List.mem_append]
    rintro (h | h)
    · exact newline_notin_escChar c h
    · exact ih h

theorem digitChar_ne_newline (d : Nat) : digitChar d ≠ '\n' := by
  unfold digitChar
  split <;> decide

theorem newline_notin_natReprAux (fuel : Nat) :
    ∀ n, '\n' ∉ natReprAux fuel n := by
  induction fuel with
  | zero => intro n; simp [natReprAux]
  | succ fuel ih =>
    intro n
    rw [natReprAux]
    split
    · simp only [List.mem_singleton]
      intro h
      exact digitChar_ne_newline n h.symm
    · simp only [List.mem_append, List.mem_singleton]
      rintro (h | h)
      · exact ih (n / 10) h
      · exact digitChar_ne_newline (n % 10) h.symm

theorem newline_notin_intRepr (i : Int) : '\n' ∉ intRepr i := by
  cases i with
  | ofNat n => exact newline_notin_natReprAux (n + 1) n
  | negSucc n =>
    simp only [intRepr, List.mem_cons]
    rintro (h | h)
    · exact absurd h (by decide)
    · exact newline_notin_natReprAux (n + 2) (n + 1) h

theorem newline_notin_pyReprBasic (v : Basic) : '\n' ∉ pyReprBasic v := by
  cases v with
  | str s =>
    simp only [pyReprBasic, List.mem_cons, List.mem_append, List.mem_singleton]
    rintro (h | h | h)
    · exact absurd h (by decide)
    · exact newline_notin_escapeChars s.data h
    · exact absurd h (by decide)
  | int n => exact newline_notin_intRepr n
  | bool b => cases b <;> decide
  | pynone => decide
  | flag f => cases f <;> decide

mutual

theorem newline_notin_pyReprPlain : (p : Plain) → '\n' ∉ pyReprPlain p
  | .scalar v => newline_notin_pyReprBasic v
  | .dict es => by
    simp only [pyReprPlain, List.mem_cons, List.mem_append, List.mem_singleton]
    rintro (h | h | h)
    · exact absurd h (by decide)
    · exact newline_notin_pyReprDictItems es h
    · exact absurd h (by decide)
  | .seq xs => by
    simp only [pyReprPlain, List.mem_cons, List.mem_append, List.mem_singleton]
    rintro (h | h | h)
    · exact absurd h (by decide)
    · exact newline_notin_pyReprListItems xs h
    · exact absurd h (by decide)

theorem newline_notin_pyReprDictItems :
    (es : List (Basic × Plain)) → '\n' ∉ pyReprDictItems es
  | [] => by simp [pyReprDictItems]
  | [(k, p)] =>
    newline_notin_append
      (newline_notin_append (newline_notin_pyReprBasic k) (by decide))
      (newline_notin_pyReprPlain p)
  | (k, p) :: e2 :: rest =>
    newline_notin_append
      (newline_notin_append
        (newline_notin_append
          (newline_notin_append (newline_notin_pyReprBasic k) (by decide))
          (newline_notin_pyReprPlain p))
        (by decide))
      (newline_notin_pyReprDictItems (e2 :: rest))

theorem newline_notin_pyReprListItems :
    (xs : List Plain) → '\n' ∉ pyReprListItems xs
  | [] => by simp [pyReprListItems]
  | [p] => newline_notin_pyReprPlain p
  | p :: p2 :: rest =>
    newline_notin_append
      (newline_notin_append (newline_notin_pyReprPlain p) (by decide))
      (newline_notin_pyReprListItems (p2 :: rest))

end

theorem newline_notin_colorConsole {s : Str} (hs : '\n' ∉ s)
    (st : RenderStatus) : '\n' ∉ colorConsole s st := by
  cases st with
  | blank => exact hs
  | highl => exact newline_notin_append (newline_notin_append (by decide) hs) (by decide)
  | rdel => exact newline_notin_append (newline_notin_append (by decide) hs) (by decide)

theorem newline_notin_joinStrs {ls : List Str} (h : ∀ l ∈ ls, '\n' ∉ l) :
    '\n' ∉ joinStrs ls := by
  induction ls with
  | nil => simp [joinStrs]
  | cons s rest ih =>
    simp only [joinStrs]
    exact newline_notin_append (h s (by simp))
      (ih fun l hl => h l (List.mem_cons_of_mem _ hl))

theorem newline_notin_dictFlatCVLine (maxi i : Nat) (k : Basic) (v : Node)
    (hv : '\n' ∉ (nodeFlat v true).2) : '\n' ∉ dictFlatCVLine maxi i k v := by
  have hk : '\n' ∉ pyReprBasic k ++ lit ": " :=
    newline_notin_append (newline_notin_pyReprBasic k) (by decide)
  simp only [dictFlatCVLine]
  split
  · exact newline_notin_colorConsole (newline_notin_append hk hv) _
  · split
    · exact newline_notin_colorConsole
        (newline_notin_append (newline_notin_append hk hv) (by decide)) _
    · split
      · apply newline_notin_colorConsole ?_ _
        intro hmem
        rcases List.mem_cons.mp hmem with h | h
        · exact absurd h (by decide)
        · exact newline_notin_append (newline_notin_append hk hv) (by decide) h
      · apply newline_notin_colorConsole ?_ _
        intro hmem
        rcases List.mem_cons.mp hmem with h | h
        · exact absurd h (by decide)
        · exact newline_notin_append hk hv h

theorem newline_notin_listFlatCVLine (maxi i : Nat) (v : Node)
    (hv : '\n' ∉ (nodeFlat v true).2) : '\n' ∉ listFlatCVLine maxi i v := by
  simp only [listFlatCVLine]
  split
  · exact newline_notin_colorConsole hv _
  · split
    · exact newline_notin_colorConsole (newline_notin_append hv (by decide)) _
    · split
      · apply newline_notin_colorConsole ?_ _
        intro hmem
        rcases List.mem_cons.mp hmem with h | h
        · exact absurd h (by decide)
        · exact newline_notin_append hv (by decide) h
      · apply newline_notin_colorConsole ?_ _
        intro hmem
        rcases List.mem_cons.mp hmem with h | h
        · exact absurd h (by decide)
        · exact hv h

mutual

theorem newline_notin_nodeFlat : (n : Node) → (cv : Bool) → '\n' ∉ (nodeFlat n cv).2
  | .scalar v st rp, cv => by
    simpa [nodeFlat] using newline_notin_pyReprBasic v
  | .dict es st rp, false => by
    simpa [nodeFlat] using newline_notin_pyReprPlain (unwrap (.dict es st rp))
  | .dict es st rp, true => by
    simp only [nodeFlat]
    intro hmem
    rcases List.mem_cons.mp hmem with h | h
    · exact absurd h (by decide)
    · rcases List.mem_append.mp h with h | h
      · exact newline_notin_joinStrs
          (fun l hl => newline_notin_dictFlatCVAuxMem es es.length 0 l hl) h
      · exact absurd h (by decide)
  | .seq xs st rp, false => by
    simpa [nodeFlat] using newline_notin_pyReprPlain (unwrap (.seq xs st rp))
  | .seq xs st rp, true => by
    simp only [nodeFlat]
    intro hmem
    rcases List.mem_cons.mp hmem with h | h
    · exact absurd h (by decide)
    · rcases List.mem_append.mp h with h | h
      · exact newline_notin_joinStrs
          (fun l hl => newline_notin_listFlatCVAuxMem xs xs.length 0 l hl) h
      · exact absurd h (by decide)

theorem newline_notin_dictFlatCVAuxMem :
    (es : List (Basic × Node)) → (maxi i : Nat) →
      ∀ l ∈ (dictFlatCVAux es maxi i).1, '\n' ∉ l
  | [], _, _ => by simp [dictFlatCVAux]
  | (k, v) :: rest, maxi, i => by
    rw [dictFlatCVAux_fst_cons]
    intro l hl
    rcases List.mem_cons.mp hl with rfl | hl
    · exact newline_notin_dictFlatCVLine maxi i k v (newline_notin_nodeFlat v true)
    · exact newline_notin_dictFlatCVAuxMem rest maxi (i + 1) l hl

theorem newline_notin_listFlatCVAuxMem :
    (xs : List Node) → (maxi i : Nat) →
      ∀ l ∈ (listFlatCVAux xs maxi i).1, '\n' ∉ l
  | [], _, _ => by simp [listFlatCVAux]
  | v :: rest, maxi, i => by
    rw [listFlatCVAux_fst_cons]
    intro l hl
    rcases List.mem_cons.mp hl with rfl | hl
    · exact newline_notin_listFlatCVLine maxi i v (newline_notin_nodeFlat v true)
    · exact newline_notin_listFlatCVAuxMem rest maxi (i + 1) l hl

end

/-! ## Indentation of the greedy multi-line layout -/

theorem hasIndent_sep_append (level : Nat) (tail : Str) :
    hasIndent level (sep (level + 1) ++ tail) := by
  unfold hasIndent
  have h : (sep (level + 1)).length = 4 * (level + 1) := by simp [sep]
  rw [← h, List.take_left]

theorem hasIndent_append_right {level : Nat} {l : Str} (h : hasIndent level l)
    (tail : Str) : hasIndent level (l ++ tail) := by
  unfold hasIndent at h ⊢
  have hlen : 4 * (level + 1) ≤ l.length := by
    have hc := congrArg List.length h
    simp only [List.length_take, sep, List.length_replicate] at hc
    omega
  rw [List.take_append_of_le_length hlen]
  exact h

theorem dictReprLines_cons (k : Basic) (v : Node) (rest : List (Basic × Node))
    (w level : Nat) (cv : Bool) (lines : List Str) :
    dictReprLines ((k, v) :: rest) w level cv lines
      = if v.isDeleted ∧ ¬cv then dictReprLines rest w level cv lines
        else dictReprLines rest w level cv (dictReprStep w level cv lines k v) := by
  rw [dictReprLines]
  rfl

theorem dictReprStep_indent (w level : Nat) (lines : List Str) (k : Basic)
    (v : Node) (hd : v.isDeleted = false) (h : ∀ l ∈ lines, hasIndent level l) :
    ∀ l ∈ dictReprStep w level false lines k v, hasIndent level l := by
  intro l hl
  simp only [dictReprStep, hd, Bool.false_eq_true, if_false, colorConsole] at hl
  split at hl
  case isTrue hc =>
    rcases List.mem_append.mp hl with h1 | h1
    · exact h l ((List.dropLast_sublist lines).subset h1)
    · rw [List.mem_singleton] at h1
      subst h1
      have hne : lines ≠ [] := by
        rcases lines with _ | _
        · simp at hc
        · simp
      have hmem : (lines.getLast?).getD [] ∈ lines := by
        rw [List.getLast?_eq_getLast_of_ne_nil hne]
        exact List.getLast_mem hne
      exact hasIndent_append_right (h _ hmem) _
  case isFalse =>
    split at hl
    · rcases List.mem_append.mp hl with h1 | h1
      · exact h l h1
      · rw [List.mem_singleton] at h1
        subst h1
        exact hasIndent_append_right
          (hasIndent_append_right (hasIndent_sep_append level _) _) _
    · rcases List.mem_append.mp hl with h1 | h1
      · exact h l h1
      · rw [List.mem_singleton] at h1
        subst h1
        exact hasIndent_append_right
          (hasIndent_append_right (hasIndent_sep_append level _) _) _

theorem dictReprLines_indent (w level : Nat) (es : List (Basic × Node)) :
    ∀ lines, (∀ l ∈ lines, hasIndent level l) →
      ∀ l ∈ dictReprLines es w level false lines, hasIndent level l := by
  induction es with
  | nil =>
    intro lines h l hl
    rw [dictReprLines] at hl
    exact h l hl
  | cons e rest ih =>
    intro lines h l hl
    obtain ⟨k, v⟩ := e
    rw [dictReprLines_cons] at hl
    by_cases hdel : v.isDeleted
    · rw [if_pos ⟨hdel, by simp⟩] at hl
      exact ih lines h l hl
    · rw [if_neg (by simp [hdel])] at hl
      exact ih _ (dictReprStep_indent w level lines k v
        (by simpa using hdel) h) l hl

/-- C6: at the top level (`level = 0`, the default plain rendering), a
mapping wrapper's `repr` returns the one-line flat form exactly when the
flat rendering's reported length is at most the configured maximum line
width `w` (the module variable `MAX_LINE_WIDTH`, default 88); otherwise
it returns the multi-line greedy layout — a rendering that spans several
lines (it contains a newline, which the flat form never does) built by
`dictReprLines`, which packs each child onto the current last line when
it fits, else onto a fresh line indented by four spaces per nesting
level (every produced line starts with the `level + 1` indent). -/
theorem dict_top_level_repr_layout (w : Nat) (es : List (Basic × Node))
    (st : Status) (rp : Option Node) :
    (nodeRepr (.dict es st rp) w 0 false = (nodeFlat (.dict es st rp) false).2
      ↔ (nodeFlat (.dict es st rp) false).1 ≤ w)
    ∧ ((nodeFlat (.dict es st rp) false).1 > w →
        nodeRepr (.dict es st rp) w 0 false
          = '{' :: '\n' :: (joinNL (dictReprLines es w 0 false [])
              ++ '\n' :: (sep 0 ++ ['}']))
        ∧ '\n' ∈ nodeRepr (.dict es st rp) w 0 false
        ∧ '\n' ∉ (nodeFlat (.dict es st rp) false).2
        ∧ ∀ l ∈ dictReprLines es w 0 false [], hasIndent 0 l) := by
  have hml : (nodeFlat (.dict es st rp) false).1 > w →
      nodeRepr (.dict es st rp) w 0 false
        = '{' :: '\n' :: (joinNL (dictReprLines es w 0 false [])
            ++ '\n' :: (sep 0 ++ ['}'])) := by
    intro hgt
    rw [nodeRepr, if_neg]
    rintro ⟨-, hle⟩
    omega
  constructor
  · constructor
    · intro heq
      by_contra hgt
      push_neg at hgt
      have h2 : '\n' ∈ (nodeFlat (.dict es st rp) false).2 := by
        rw [← heq, hml hgt]
        simp
      exact absurd h2 (newline_notin_nodeFlat _ false)
    · intro hle
      rw [nodeRepr, if_pos ⟨rfl, hle⟩]
  · intro hgt
    refine ⟨hml hgt, ?_, newline_notin_nodeFlat _ false,
      dictReprLines_indent w 0 es [] (by simp)⟩
    rw [hml hgt]
    simp

/-- C6 witness: at width `3`, the flat rendering `{'a': 1}` (reported
length `8`) does not fit, so the concrete one-entry mapping renders
multi-line and every layout line carries the four-space level-one
indent. -/
theorem dict_top_level_repr_layout_witness :
    ((nodeFlat (.dict demoEntries .unmarked none) false).1 ≤ 3
      ↔ nodeRepr (.dict demoEntries .unmarked none) 3 0 false
          = (nodeFlat (.dict demoEntries .unmarked none) false).2)
    ∧ nodeRepr (.dict demoEntries .unmarked none) 3 0 false
        = '{' :: '\n' :: (joinNL (dictReprLines demoEntries 3 0 false [])
            ++ '\n' :: (sep 0 ++ ['}']))
    ∧ '\n' ∈ nodeRepr (.dict demoEntries .unmarked none) 3 0 false
    ∧ ∀ l ∈ dictReprLines demoEntries 3 0 false [], hasIndent 0 l := by
  have h := dict_top_level_repr_layout 3 demoEntries .unmarked none
  have hgt : (nodeFlat (.dict demoEntries .unmarked none) false).1 > 3 := by decide
  refine ⟨(h.1).symm, (h.2 hgt).1, (h.2 hgt).2.1, (h.2 hgt).2.2.2⟩

/-- C7, counterexample: the factory entry point called with no argument
wraps the scalar `None` itself — its unwrapped value is not an empty
mapping. -/
theorem config_default_not_empty_mapping :
    (configNew).obj = Plain.scalar .pynone ∧ (configNew).obj ≠ Plain.dict [] :=
  ⟨rfl, fun h => Plain.noConfusion h⟩

/-- C7, amended: the factory entry point called with no argument returns
a wrapper whose unwrapped value is the scalar `None` (not an empty
mapping) and which stores no file format; a subsequent save of it with
no format specified, to a path whose suffix is not a recognized config
suffix, resolves the format to `"json"`. -/
theorem config_default_wraps_none_and_saves_json :
    (configNew).obj = Plain.scalar .pynone
    ∧ (configNew).fileformat = none
    ∧ resolveFormat configNew "t.cfg" none = "json"
    ∧ save configNew (some "t.cfg") none none
        = .ok ⟨"t.cfg", "json", none⟩ := by
  refine ⟨rfl, rfl, rfl, rfl⟩

theorem saveResolved_fileFormatError_iff (w : CfgIO) (q : String)
    (f e : Option String) :
    saveResolved w q f e = .error .fileFormatError ↔
      FORMAT_MAPPING.lookup (resolveFormat w q f) = none := by
  unfold saveResolved
  cases h : FORMAT_MAPPING.lookup (resolveFormat w q f) <;> simp [h]

theorem saveResolved_ne_valueError (w : CfgIO) (q : String) (f e : Option String) :
    saveResolved w q f e ≠ .error .valueError := by
  unfold saveResolved
  cases h : FORMAT_MAPPING.lookup (resolveFormat w q f) <;> simp [h]

theorem saveResolved_ne_typeError (w : CfgIO) (q : String) (f e : Option String) :
    saveResolved w q f e ≠ .error .typeError := by
  unfold saveResolved
  cases h : FORMAT_MAPPING.lookup (resolveFormat w q f) <;> simp [h]

/-- C8: `save` raises `ValueError` exactly when both the `path` argument
and the stored default path are `None`; it raises `TypeError` when
saving to the locked default path (no `path` argument, stored path
present, `overwrite_ok` off); it raises `FileFormatError` exactly when
the resolved file format is unsupported (whether the path was passed
explicitly or came from the stored default, lock permitting); and a
`save` call that raises any of these guard errors performs no write. -/
theorem save_guard_errors (w : CfgIO) (p f e : Option String) :
    (save w p f e = .error .valueError ↔ p = none ∧ w.path = none)
    ∧ (∀ q, p = none → w.path = some q → w.overwriteOk = false →
        save w p f e = .error .typeError)
    ∧ (∀ q, save w (some q) f e = .error .fileFormatError ↔
        FORMAT_MAPPING.lookup (resolveFormat w q f) = none)
    ∧ (∀ q, p = none → w.path = some q → w.overwriteOk = true →
        (save w p f e = .error .fileFormatError ↔
          FORMAT_MAPPING.lookup (resolveFormat w q f) = none))
    ∧ (∀ err, save w p f e = .error err → writesOf (save w p f e) = []) := by
  refine ⟨?_, ?_, ?_, ?_, ?_⟩
  · cases p with
    | none =>
      cases hp : w.path with
      | none => simp [save, hp]
      | some q =>
        by_cases hl : w.overwriteOk <;>
          simp [save, hp, hl, saveResolved_ne_valueError w q f e]
    | some q => simp [save, saveResolved_ne_valueError w q f e]
  · intro q hp hwp hl
    subst hp
    simp [save, hwp, hl]
  · intro q
    simpa [save] using saveResolved_fileFormatError_iff w q f e
  · intro q hp hwp hl
    subst hp
    simpa [save, hwp, hl] using saveResolved_fileFormatError_iff w q f e
  · intro err herr
    rw [herr]
    rfl


/-- C8 witness: each guard error at a concrete wrapper, with no write
performed. -/
theorem save_guard_errors_witness :
    save wNoPath none none none = .error .valueError
    ∧ save wLocked none none none = .error .typeError
    ∧ save wNoPath (some "a.json") (some "weird") none = .error .fileFormatError
    ∧ writesOf (save wNoPath none none none) = [] := by
  refine ⟨?_, ?_, ?_, ?_⟩
  · exact (save_guard_errors wNoPath none none none).1.mpr ⟨rfl, rfl⟩
  · exact (save_guard_errors wLocked none none none).2.1 "a.json" rfl rfl rfl
  · exact (save_guard_errors wNoPath (some "a.json") (some "weird")
      none).2.2.1 "a.json" |>.mpr rfl
  · exact (save_guard_errors wNoPath none none none).2.2.2.2 .valueError
      ((save_guard_errors wNoPath none none none).1.mpr ⟨rfl, rfl⟩)

/-- C9: `save` consults the `overwrite_ok` lock only when the `path`
argument is `None`: with an explicitly passed path — the wrapper's own
original path included — the result is the same whatever the lock state,
and is never the lock `TypeError`. -/
theorem save_explicit_path_ignores_lock (w : CfgIO) (q : String)
    (f e : Option String) (b : Bool) :
    save { w with overwriteOk := b } (some q) f e = save w (some q) f e
    ∧ save w (some q) f e ≠ .error .typeError := by
  refine ⟨rfl, ?_⟩
  simpa [save] using saveResolved_ne_typeError w q f e

/-- C10: entering the scoped context raises `TypeError` when the wrapper
has no stored path or is already locked, and otherwise locks it; exiting
is independent of the exception information, always unlocks, and invokes
`save()` (with all-default arguments) exactly once. -/
theorem context_enter_exit_contract (w : CfgIO) (p : String) (e1 e2 : Option String) :
    (w.path = none → enterCtx w = .error .typeError)
    ∧ (w.overwriteOk = false → enterCtx w = .error .typeError)
    ∧ (w.path = some p → w.overwriteOk = true → enterCtx w = .ok (lock w))
    ∧ exitCtx w e1 = exitCtx w e2
    ∧ (exitCtx w e1).1 = unlock w
    ∧ (unlock w).overwriteOk = true
    ∧ (exitCtx w e1).2 = [⟨none, none, none⟩] := by
  refine ⟨?_, ?_, ?_, rfl, rfl, rfl, rfl⟩
  · intro h
    simp [enterCtx, h]
  · intro h
    cases hp : w.path <;> simp [enterCtx, hp, h]
  · intro h1 h2
    simp [enterCtx, h1, h2]

/-- C10 witness: a concrete pathless wrapper and a concrete locked
wrapper fail to enter; a concrete well-formed wrapper enters locked and
exits unlocked with one `save()` invocation. -/
theorem context_enter_exit_contract_witness :
    enterCtx wNoPath = .error .typeError
    ∧ enterCtx wLocked = .error .typeError
    ∧ enterCtx wPathed = .ok (lock wPathed)
    ∧ (exitCtx wPathed none).2 = [⟨none, none, none⟩] := by
  refine ⟨?_, ?_, ?_, ?_⟩
  · exact (context_enter_exit_contract wNoPath "a.json" none none).1 rfl
  · exact (context_enter_exit_contract wLocked "a.json" none none).2.1 rfl
  · exact (context_enter_exit_contract wPathed "a.json" none none).2.2.1 rfl rfl
  · exact (context_enter_exit_contract wPathed "a.json" none none).2.2.2.2.2.2

end Cfgtools
